import Mathlib

/-!
Verification development for the AliceVision `cameraInit` pipeline step
(`src/software/pipeline/main_cameraInit.cpp` and `src/aliceVision/sfm/viewIO.hpp`).

The per-view pass of `main` is embedded as a pure state-passing fold over the
list of views.  Machine integers (`IndexT`, a 32-bit unsigned index) are
modelled as `Nat` with explicit `% 2 ^ 32` where the code truncates;
`double` values are modelled as `ℚ` (the code performs only comparisons,
ratios and products on them, no transcendental operation is needed on the
claims' paths — the field-of-view conversion, which involves `tan`, is kept
abstract as a function parameter of the configuration).

Components whose implementation is not part of this repository snapshot
(`getViewIntrinsic` from `viewIO.cpp`, the sensor-database lookup `getInfo`,
the intrinsic's `hashValue`, the C runtime `std::rand`) are modelled from the
specification; each such definition carries a doc comment starting with
`Modelled from the spec:`.
-/

/-- `UndefinedIndexT` from AliceVision: the reserved "unassigned" sentinel of
the 32-bit unsigned index type (`std::numeric_limits<IndexT>::max()`). -/
def UndefinedIndexT : Nat := 2 ^ 32 - 1

/-- One record of the sensor-width database (`sensorDB::Datasheet`):
camera make, camera model, physical sensor width in millimeters. -/
structure Datasheet where
  make : String
  model : String
  sensorSize : ℚ
deriving DecidableEq

/-- ASCII lowercase of one character. -/
def lowerChar (c : Char) : Char :=
  if 'A' ≤ c ∧ c ≤ 'Z' then Char.ofNat (c.toNat + 32) else c

/-- Case-insensitive string comparison used by the database matching. -/
def strCaseEq (a b : String) : Bool := a.data.map lowerChar == b.data.map lowerChar

/-- Modelled from the spec: `sensorDB::getInfo` (the database lookup, whose
implementation `parseDatabase.cpp` is not in this snapshot).  §4.1: given a
camera make/model string pair, returns the known datasheet or "unknown";
matching is case-insensitive best-effort, deterministic, read-only. -/
def getInfo (make model : String) (db : List Datasheet) : Option Datasheet :=
  db.find? (fun d => strCaseEq d.make make && strCaseEq d.model model)

/-- Rig membership of a view: rig id and sub-pose id. -/
structure RigInfo where
  rigId : Nat
  subPoseId : Nat
deriving DecidableEq

/-- One view (`sfm::View`): image path, image size, the optional `Make` and
`Model` metadata entries, the optional embedded focal length in millimeters,
the assigned intrinsic group id (`UndefinedIndexT` when unassigned), and
optional rig membership. -/
structure View where
  viewId : Nat
  imagePath : String
  width : Nat
  height : Nat
  make : Option String
  model : Option String
  focalLengthMM : Option ℚ
  intrinsicId : Nat
  rig : Option RigInfo
deriving DecidableEq

/-- `hasMetadata "Make" && hasMetadata "Model"` from the source. -/
def hasCameraMetadata (v : View) : Bool := v.make.isSome && v.model.isSome

/-- The parameters of a built intrinsic (`camera::IntrinsicBase`): model
family tag, initial focal length in pixels (sentinel `≤ 0` marks unknown),
principal point, and the serial-number string used to disambiguate groups. -/
structure IntrinsicParams where
  family : Nat
  initialFocalLengthPix : ℚ
  ppx : ℚ
  ppy : ℚ
  serialNumber : String
deriving DecidableEq

/-- Run configuration: the command-line options used by the per-view pass,
plus the abstract components that are external to this snapshot:
`hash` models `IntrinsicBase::hashValue` (modelled from the spec: a
deterministic pure function of the intrinsic parameters, §3/§4.2; the spec
imposes no further constraint, so it is a parameter of the model, truncated
to 32 bits where the code assigns it to an `IndexT`);
`rands` models the successive values of `std::rand()` (modelled from the
spec: a per-view random generator; values are reduced `% 2 ^ 31` because
`std::rand` returns a nonnegative `int`, hence a value `≤ 2 ^ 31 - 1`);
`fovFocal` models the pinhole relation `0.5 * w / tan(0.5 * fov)` (kept
abstract because `tan` is transcendental). -/
structure Config where
  defaultFocalLengthPixel : ℚ
  defaultFieldOfView : ℚ
  defaultCameraModel : Nat
  defaultPPx : ℚ
  defaultPPy : ℚ
  groupCameraModel : Int
  allowIncompleteOutput : Bool
  allowSingleView : Bool
  hash : IntrinsicParams → Nat
  rands : Nat → Nat
  fovFocal : ℚ → ℚ → ℚ

/-- Decimal digits of `n`, least significant first (empty for `0`),
computed with explicit fuel so that concrete instances evaluate. -/
def toDecAux : Nat → Nat → List Nat
  | 0, _ => []
  | fuel + 1, n => if n = 0 then [] else n % 10 :: toDecAux fuel (n / 10)

/-- Decimal digits of `n`, least significant first (empty for `0`). -/
def decDigits (n : Nat) : List Nat := toDecAux n n

/-- Value of a least-significant-first digit list. -/
def ofDec : List Nat → Nat
  | [] => 0
  | d :: t => d + 10 * ofDec t

/-- Decimal digits of `n`, most significant first, as characters
(`['0']` for `0`): the rendering `std::to_string` produces. -/
def natToDecChars (n : Nat) : List Char :=
  if n = 0 then ['0'] else ((decDigits n).map Nat.digitChar).reverse

/-- `std::to_string` on a nonnegative integer. -/
def natToDec (n : Nat) : String := String.mk (natToDecChars n)

/-- The serial-number tag `"no_metadata_rig_" + rigId + "_" + subPoseId`
built at line 444 of `main_cameraInit.cpp` for rig views without metadata. -/
def rigSerial (rigId subPoseId : Nat) : String :=
  String.mk ("no_metadata_rig_".data ++ natToDecChars rigId
    ++ '_' :: natToDecChars subPoseId)

/-- `boost::filesystem::path::parent_path` for a plain slash-separated path:
everything before the last `/` (empty when there is no slash). -/
def parentPath (s : String) : String :=
  String.mk (((s.data.reverse.dropWhile (fun c => ¬ c = '/')).drop 1).reverse)

/-- Modelled from the spec: `sfm::getViewIntrinsic` (its implementation
`viewIO.cpp` is not in this snapshot), §4.2.  Focal-length precedence:
an explicit pixel focal length is used directly; else with a known sensor
width a field-of-view default is converted through the pinhole relation, or
an embedded metadata focal length in millimeters is converted by
`f_px = f_mm * imageWidth / sensorWidth`; else the focal length is the
unknown sentinel `-1`.  The model family is the requested default; the
principal point defaults to the image center unless overridden.  The
serial-number string disambiguating groups (§3) is derived from the
camera make/model metadata when present. -/
def getViewIntrinsic (cfg : Config) (v : View) (sensorWidth : ℚ) : IntrinsicParams :=
  let focal : ℚ :=
    if 0 < cfg.defaultFocalLengthPixel then cfg.defaultFocalLengthPixel
    else if 0 < sensorWidth ∧ 0 < cfg.defaultFieldOfView then
      cfg.fovFocal cfg.defaultFieldOfView (v.width : ℚ)
    else
      match v.focalLengthMM with
      | some fmm => if 0 < sensorWidth then fmm * (v.width : ℚ) / sensorWidth else -1
      | none => -1
  { family := cfg.defaultCameraModel
    initialFocalLengthPix := focal
    ppx := if 0 < cfg.defaultPPx then cfg.defaultPPx else (v.width : ℚ) / 2
    ppy := if 0 < cfg.defaultPPy then cfg.defaultPPy else (v.height : ℚ) / 2
    serialNumber := (v.make.getD "") ++ " " ++ (v.model.getD "") }

/-- The serial-number overrides of lines 432-446: for a view without camera
metadata, in grouping mode 2 the serial becomes the image's parent folder,
and for a rig view it becomes the rig tag (applied after, so it wins). -/
def applySerialOverride (cfg : Config) (v : View) (p : IntrinsicParams) : IntrinsicParams :=
  if hasCameraMetadata v then p
  else
    let p1 := if cfg.groupCameraModel = 2 then
      { p with serialNumber := parentPath v.imagePath } else p
    match v.rig with
    | some r => { p1 with serialNumber := rigSerial r.rigId r.subPoseId }
    | none => p1

/-- The sensor width the build path of lines 393-419 resolves for a view:
the datasheet value when the metadata pair is in the database, `-1` otherwise. -/
def sensorWidthOf (db : List Datasheet) (v : View) : ℚ :=
  if hasCameraMetadata v then
    match getInfo (v.make.getD "") (v.model.getD "") db with
    | some ds => ds.sensorSize
    | none => -1
  else -1

/-- The intrinsic parameters a view hashes on the build path: the built
intrinsic with the serial-number overrides applied. -/
def builtIntrinsic (cfg : Config) (db : List Datasheet) (v : View) : IntrinsicParams :=
  applySerialOverride cfg v (getViewIntrinsic cfg v (sensorWidthOf db v))

/-- Association-list lookup in the intrinsic group mapping. -/
def lookupI : List (Nat × IntrinsicParams) → Nat → Option IntrinsicParams
  | [], _ => none
  | (k, p) :: t, i => if k = i then some p else lookupI t i

/-- Association-list lookup in the unknown-sensor ledger. -/
def lookupU : List ((String × String) × String) → String × String → Option String
  | [], _ => none
  | (k, p) :: t, i => if k = i then some p else lookupU t i

/-- `std::map::emplace` on the intrinsic mapping: inserts only when the key
is absent. -/
def emplaceI (m : List (Nat × IntrinsicParams)) (k : Nat) (p : IntrinsicParams) :
    List (Nat × IntrinsicParams) :=
  if (lookupI m k).isSome then m else m ++ [(k, p)]

/-- The mutable state shared across the per-view pass: the intrinsic group
mapping, the unknown-sensor ledger (keyed by make/model, value the first
image path), the list of image paths lacking metadata, the complete-view
counter, and the number of random draws consumed. -/
structure PassState where
  intrinsics : List (Nat × IntrinsicParams)
  unknownSensors : List ((String × String) × String)
  noMetadataImagePaths : List String
  completeViewCount : Nat
  randIdx : Nat
deriving DecidableEq

/-- `unknownSensors.emplace((make, model), imagePath)`: record the pair with
a representative image path, keeping the first recording. -/
def recordUnknown (s : PassState) (mk md path : String) : PassState :=
  { s with unknownSensors :=
      if (lookupU s.unknownSensors (mk, md)).isSome then s.unknownSensors
      else s.unknownSensors ++ [((mk, md), path)] }

/-- Lines 421-461: build the intrinsic, count it when its focal length is
positive, apply the serial overrides, choose the group id (the pre-existing
forced id when the view carried one, else the parameter hash truncated to
`IndexT`; in grouping mode 0 a fresh random value instead), and publish.
Returns the new state, the updated view, and the published (id, params). -/
def buildPublish (cfg : Config) (s : PassState) (v : View) (sensorWidth : ℚ) :
    PassState × View × Option (Nat × IntrinsicParams) :=
  let p0 := getViewIntrinsic cfg v sensorWidth
  let s1 := if 0 < p0.initialFocalLengthPix then
    { s with completeViewCount := s.completeViewCount + 1 } else s
  let p := applySerialOverride cfg v p0
  let iid0 := if v.intrinsicId = UndefinedIndexT then cfg.hash p % 2 ^ 32 else v.intrinsicId
  if cfg.groupCameraModel = 0 then
    let iid := cfg.rands s1.randIdx % 2 ^ 31
    ({ s1 with randIdx := s1.randIdx + 1,
               intrinsics := emplaceI s1.intrinsics iid p },
     { v with intrinsicId := iid }, some (iid, p))
  else
    ({ s1 with intrinsics := emplaceI s1.intrinsics iid0 p },
     { v with intrinsicId := iid0 }, some (iid0, p))

/-- Lines 393-419: resolve the sensor width and handle the two anomaly
paths.  Metadata present but sensor unknown: record the pair and skip the
build unless incomplete output is allowed.  Metadata absent: record the
image path; when incomplete output is allowed, explicitly mark the view
unassigned and skip the build; otherwise build with unknown sensor width. -/
def buildStep (cfg : Config) (db : List Datasheet) (s : PassState) (v : View) :
    PassState × View × Option (Nat × IntrinsicParams) :=
  if hasCameraMetadata v then
    match getInfo (v.make.getD "") (v.model.getD "") db with
    | some ds => buildPublish cfg s v ds.sensorSize
    | none =>
      let s1 := recordUnknown s (v.make.getD "") (v.model.getD "") v.imagePath
      if cfg.allowIncompleteOutput then buildPublish cfg s1 v (-1) else (s1, v, none)
  else
    let s1 := { s with noMetadataImagePaths := s.noMetadataImagePaths ++ [v.imagePath] }
    if cfg.allowIncompleteOutput then
      (s1, { v with intrinsicId := UndefinedIndexT }, none)
    else buildPublish cfg s1 v (-1)

/-- The body of the parallel-for of lines 357-462, for one view.  A view
already referencing an existing intrinsic is counted complete when that
intrinsic's focal length is positive, otherwise only checked against the
sensor database; a view whose id is unassigned, or dangling (no intrinsic
under it), goes to the build path. -/
def processView (cfg : Config) (db : List Datasheet) (s : PassState) (v : View) :
    PassState × View × Option (Nat × IntrinsicParams) :=
  if v.intrinsicId = UndefinedIndexT then buildStep cfg db s v
  else
    match lookupI s.intrinsics v.intrinsicId with
    | none => buildStep cfg db s v
    | some p =>
      if 0 < p.initialFocalLengthPix then
        ({ s with completeViewCount := s.completeViewCount + 1 }, v, none)
      else if hasCameraMetadata v = true
              ∧ getInfo (v.make.getD "") (v.model.getD "") db = none then
        (recordUnknown s (v.make.getD "") (v.model.getD "") v.imagePath, v, none)
      else (s, v, none)

/-- The whole per-view pass as a fold (the source runs it as a parallel-for
whose shared-state updates are serialized by critical sections; the claims
are order-independent, and the fold is the sequential determinization). -/
def runPass (cfg : Config) (db : List Datasheet) :
    PassState → List View → PassState × List View
  | s, [] => (s, [])
  | s, v :: rest =>
    let r1 := processView cfg db s v
    let r2 := runPass cfg db r1.1 rest
    (r2.1, r1.2.1 :: r2.2)

/-- The initial shared state of a run: the intrinsic mapping loaded from the
input dataset, empty ledgers, zero counters. -/
def initState (intr0 : List (Nat × IntrinsicParams)) : PassState :=
  { intrinsics := intr0, unknownSensors := [], noMetadataImagePaths := []
    completeViewCount := 0, randIdx := 0 }

/-- The per-view pass started on a loaded dataset. -/
def runPassInit (cfg : Config) (db : List Datasheet)
    (intr0 : List (Nat × IntrinsicParams)) (views : List View) :
    PassState × List View :=
  runPass cfg db (initState intr0) views

/-- The success/failure verdict of the run (lines 348-352 and 464-488; file
I/O is outside the model): failure when no views were found, when the
unknown-sensor ledger is nonempty and incomplete output is not allowed, or
when incomplete output is not allowed and the complete-view count is below
the minimum (two, or one when a single view is allowed). -/
def runSuccess (cfg : Config) (db : List Datasheet)
    (intr0 : List (Nat × IntrinsicParams)) (views : List View) : Bool :=
  if views.isEmpty then false
  else
    let st := (runPassInit cfg db intr0 views).1
    if ¬ st.unknownSensors.isEmpty ∧ cfg.allowIncompleteOutput = false then false
    else if cfg.allowIncompleteOutput = false ∧
        (st.completeViewCount < 1 ∨ (st.completeViewCount < 2 ∧ cfg.allowSingleView = false))
      then false
    else true

/-- Numeric value of a list of decimal digit characters. -/
def digsVal (l : List Char) : Nat :=
  l.foldl (fun a c => a * 10 + (c.toNat - 48)) 0

/-- The extraction `stringstream >> double` performed on each K-matrix field
(line 58), for the decimal grammar: skip leading whitespace, optional sign,
integer digits, optional fractional part, optional exponent (taken only when
it has at least one digit).  Extraction succeeds exactly when the mantissa
has at least one digit; trailing characters after the numeric value are left
unread and do not cause a failure.  The value is returned exactly, as a
rational. -/
def parseDouble (s : String) : Option ℚ :=
  let cs := s.data.dropWhile Char.isWhitespace
  let sgn : ℚ := match cs with
    | '-' :: _ => -1
    | _ => 1
  let cs1 := match cs with
    | '+' :: t => t
    | '-' :: t => t
    | _ => cs
  let d1 := cs1.takeWhile Char.isDigit
  let r1 := cs1.dropWhile Char.isDigit
  let d2 := match r1 with
    | '.' :: t => t.takeWhile Char.isDigit
    | _ => []
  let r2 := match r1 with
    | '.' :: t => t.dropWhile Char.isDigit
    | _ => r1
  if d1.isEmpty && d2.isEmpty then none
  else
    let mant : ℚ := sgn * ((digsVal d1 : ℚ) + (digsVal d2 : ℚ) / (10 : ℚ) ^ d2.length)
    let e : Int := match r2 with
      | c :: t =>
        if c = 'e' ∨ c = 'E' then
          let esgn : Int := match t with
            | '-' :: _ => -1
            | _ => 1
          let t2 := match t with
            | '+' :: u => u
            | '-' :: u => u
            | _ => t
          let d3 := t2.takeWhile Char.isDigit
          if d3.isEmpty then 0 else esgn * (digsVal d3 : Int)
        else 0
      | [] => 0
    some (mant * (10 : ℚ) ^ e)

/-- `boost::split` on the separator `;`, keeping empty fields (structurally
recursive so that concrete instances evaluate). -/
def splitSemiAux : List Char → List Char → List String
  | [], acc => [String.mk acc.reverse]
  | c :: t, acc =>
    if c = ';' then String.mk acc.reverse :: splitSemiAux t []
    else splitSemiAux t (c :: acc)

/-- Split a string on `;`, keeping empty fields. -/
def splitSemi (s : String) : List String := splitSemiAux s.data []

/-- The loop of lines 53-66: parse each field in order; fail on the first
field with no numeric value, keeping the output slots written so far; write
field 0 to the focal output, field 2 to the ppx output, field 5 to the ppy
output. -/
def kmatrixLoop : Nat → List String → ℚ × ℚ × ℚ → Bool × ℚ × ℚ × ℚ
  | _, [], acc => (true, acc)
  | i, f :: rest, (fo, px, py) =>
    match parseDouble f with
    | none => (false, fo, px, py)
    | some val =>
      kmatrixLoop (i + 1) rest
        (if i = 0 then val else fo, if i = 2 then val else px, if i = 5 then val else py)

/-- `checkIntrinsicStringValidity` (lines 39-68): split the K-matrix string
on `;`, reject unless there are exactly 9 fields, then run the field loop.
The three trailing arguments are the incoming values of the by-reference
outputs `focal`, `ppx`, `ppy`; the result is the returned flag together with
their final values. -/
def checkIntrinsicStringValidity (Kmatrix : String) (focal ppx ppy : ℚ) :
    Bool × ℚ × ℚ × ℚ :=
  let fields := splitSemi Kmatrix
  if fields.length ≠ 9 then (false, focal, ppx, ppy)
  else kmatrixLoop 0 fields (focal, ppx, ppy)

/-! ### Helper lemmas: decimal rendering and the rig serial tag -/

theorem digitChar_inj_lt : ∀ a : Fin 10, ∀ b : Fin 10,
    Nat.digitChar a.val = Nat.digitChar b.val → a = b := by decide

theorem digitChar_ne_underscore : ∀ a : Fin 10, Nat.digitChar a.val ≠ '_' := by decide

theorem mapDigitChar_inj : ∀ l1 l2 : List Nat, (∀ x ∈ l1, x < 10) → (∀ x ∈ l2, x < 10) →
    l1.map Nat.digitChar = l2.map Nat.digitChar → l1 = l2 := by
  intro l1
  induction l1 with
  | nil => intro l2 _ _ h; cases l2 <;> simp_all
  | cons a t ih =>
    intro l2 h1 h2 h
    cases l2 with
    | nil => simp_all
    | cons b t2 =>
      simp only [List.map_cons, List.cons.injEq] at h
      have ha : a < 10 := h1 a (by simp)
      have hb : b < 10 := h2 b (by simp)
      have hab : (⟨a, ha⟩ : Fin 10) = ⟨b, hb⟩ :=
        digitChar_inj_lt ⟨a, ha⟩ ⟨b, hb⟩ h.1
      refine List.cons_eq_cons.mpr ⟨by simpa using hab, ?_⟩
      exact ih t2 (fun x hx => h1 x (by simp [hx])) (fun x hx => h2 x (by simp [hx])) h.2

theorem ofDec_toDecAux : ∀ (fuel n : Nat), n ≤ fuel → ofDec (toDecAux fuel n) = n := by
  intro fuel
  induction fuel with
  | zero =>
    intro n h
    have : n = 0 := Nat.le_zero.mp h
    subst this
    rfl
  | succ f ih =>
    intro n h
    by_cases h0 : n = 0
    · subst h0; rfl
    · simp only [toDecAux, if_neg h0, ofDec]
      have hdiv : n / 10 ≤ f := by
        have : n / 10 < n := Nat.div_lt_self (Nat.pos_of_ne_zero h0) (by norm_num)
        omega
      rw [ih (n / 10) hdiv]
      omega

theorem decDigits_val (n : Nat) : ofDec (decDigits n) = n :=
  ofDec_toDecAux n n (Nat.le_refl n)

theorem decDigits_inj {m n : Nat} (h : decDigits m = decDigits n) : m = n := by
  have hm := decDigits_val m
  rw [h, decDigits_val] at hm
  exact hm.symm

theorem toDecAux_lt : ∀ (fuel n : Nat), ∀ d ∈ toDecAux fuel n, d < 10 := by
  intro fuel
  induction fuel with
  | zero => intro n d hd; cases hd
  | succ f ih =>
    intro n d hd
    by_cases h0 : n = 0
    · subst h0; cases hd
    · simp only [toDecAux, if_neg h0, List.mem_cons] at hd
      rcases hd with hd | hd
      · subst hd; exact Nat.mod_lt n (by norm_num)
      · exact ih (n / 10) d hd

theorem decDigits_lt (n : Nat) : ∀ d ∈ decDigits n, d < 10 := toDecAux_lt n n

theorem underscore_not_mem_natToDecChars (n : Nat) : '_' ∉ natToDecChars n := by
  unfold natToDecChars
  split
  · simp
  · intro hmem
    simp only [List.mem_reverse, List.mem_map] at hmem
    obtain ⟨d, hd, hc⟩ := hmem
    have hlt : d < 10 := decDigits_lt n d hd
    exact digitChar_ne_underscore ⟨d, hlt⟩ hc

theorem natToDecChars_inj {m n : Nat} (h : natToDecChars m = natToDecChars n) : m = n := by
  have map0 : ([0] : List Nat).map Nat.digitChar = ['0'] := by decide
  by_cases hm : m = 0
  · by_cases hn : n = 0
    · rw [hm, hn]
    · exfalso
      unfold natToDecChars at h
      rw [if_pos hm, if_neg hn, ← List.map_reverse] at h
      have hd : ([0] : List Nat) = (decDigits n).reverse :=
        mapDigitChar_inj [0] (decDigits n).reverse (by simp)
          (fun x hx => decDigits_lt n x (List.mem_reverse.mp hx))
          (by rw [map0]; exact h)
      have hds : decDigits n = [0] := by
        have := congrArg List.reverse hd
        simpa using this.symm
      have := decDigits_val n
      rw [hds] at this
      simp [ofDec] at this
      exact hn this.symm
  · by_cases hn : n = 0
    · exfalso
      unfold natToDecChars at h
      rw [if_neg hm, if_pos hn, ← List.map_reverse] at h
      have hd : (decDigits m).reverse = ([0] : List Nat) :=
        mapDigitChar_inj (decDigits m).reverse [0]
          (fun x hx => decDigits_lt m x (List.mem_reverse.mp hx))
          (by simp) (by rw [map0]; exact h)
      have hds : decDigits m = [0] := by
        have := congrArg List.reverse hd
        simpa using this
      have := decDigits_val m
      rw [hds] at this
      simp [ofDec] at this
      exact hm this.symm
    · unfold natToDecChars at h
      rw [if_neg hm, if_neg hn] at h
      have h0 := congrArg List.reverse h
      simp only [List.reverse_reverse] at h0
      have := mapDigitChar_inj (decDigits m) (decDigits n)
        (fun x hx => decDigits_lt m x hx)
        (fun x hx => decDigits_lt n x hx) h0
      exact decDigits_inj this

theorem splitUnderscore : ∀ (a1 : List Char) {b1 : List Char} (a2 : List Char) {b2 : List Char},
    '_' ∉ a1 → '_' ∉ a2 → a1 ++ '_' :: b1 = a2 ++ '_' :: b2 → a1 = a2 ∧ b1 = b2 := by
  intro a1
  induction a1 with
  | nil =>
    intro b1 a2 b2 _ h2 h
    cases a2 with
    | nil => simpa using h
    | cons c t =>
      exfalso
      simp only [List.nil_append, List.cons_append, List.cons.injEq] at h
      exact h2 (by rw [← h.1]; exact List.mem_cons_self _ _)
  | cons c t ih =>
    intro b1 a2 b2 h1 h2 h
    cases a2 with
    | nil =>
      exfalso
      simp only [List.nil_append, List.cons_append, List.cons.injEq] at h
      exact h1 (by rw [h.1]; exact List.mem_cons_self _ _)
    | cons d t2 =>
      simp only [List.cons_append, List.cons.injEq] at h
      have ht := ih t2 (fun hx => h1 (by simp [hx])) (fun hx => h2 (by simp [hx])) h.2
      exact ⟨by simp [h.1, ht.1], ht.2⟩

theorem rigSerial_inj {r1 s1 r2 s2 : Nat}
    (h : rigSerial r1 s1 = rigSerial r2 s2) : r1 = r2 ∧ s1 = s2 := by
  unfold rigSerial at h
  have hl : "no_metadata_rig_".data ++ (natToDecChars r1 ++ '_' :: natToDecChars s1)
      = "no_metadata_rig_".data ++ (natToDecChars r2 ++ '_' :: natToDecChars s2) := by
    have := congrArg String.data h
    simpa using this
  have hx := List.append_cancel_left hl
  have := splitUnderscore (natToDecChars r1) (natToDecChars r2)
    (underscore_not_mem_natToDecChars r1) (underscore_not_mem_natToDecChars r2) hx
  exact ⟨natToDecChars_inj this.1, natToDecChars_inj this.2⟩

/-! ### Helper lemmas: the per-view branches -/

theorem processView_complete {cfg : Config} {db : List Datasheet} {s : PassState} {v : View}
    {p : IntrinsicParams} (hid : v.intrinsicId ≠ UndefinedIndexT)
    (hl : lookupI s.intrinsics v.intrinsicId = some p) (hf : 0 < p.initialFocalLengthPix) :
    processView cfg db s v
      = ({ s with completeViewCount := s.completeViewCount + 1 }, v, none) := by
  unfold processView
  rw [if_neg hid, hl]
  simp only [if_pos hf]

theorem view_eta_undefined {v : View} (hid : v.intrinsicId = UndefinedIndexT) :
    { v with intrinsicId := UndefinedIndexT } = v := by
  cases v
  simp_all

theorem processView_noMetaSkip {cfg : Config} {db : List Datasheet} {s : PassState} {v : View}
    (hm : hasCameraMetadata v = false) (hinc : cfg.allowIncompleteOutput = true)
    (hid : v.intrinsicId = UndefinedIndexT) :
    processView cfg db s v
      = ({ s with noMetadataImagePaths := s.noMetadataImagePaths ++ [v.imagePath] }, v, none) := by
  unfold processView buildStep
  rw [if_pos hid, hm]
  simp only [Bool.false_eq_true, if_false, if_pos hinc, view_eta_undefined hid]

theorem getD_make {v : View} {mk : String} (h : v.make = some mk) : v.make.getD "" = mk := by
  rw [h]; rfl

theorem getD_model {v : View} {md : String} (h : v.model = some md) : v.model.getD "" = md := by
  rw [h]; rfl

theorem hasCameraMetadata_true {v : View} {mk md : String}
    (hmk : v.make = some mk) (hmd : v.model = some md) : hasCameraMetadata v = true := by
  simp [hasCameraMetadata, hmk, hmd]

theorem sensorWidthOf_found {db : List Datasheet} {v : View} {mk md : String} {ds : Datasheet}
    (hmk : v.make = some mk) (hmd : v.model = some md) (hdb : getInfo mk md db = some ds) :
    sensorWidthOf db v = ds.sensorSize := by
  unfold sensorWidthOf
  rw [hasCameraMetadata_true hmk hmd, getD_make hmk, getD_model hmd, hdb]
  simp

theorem sensorWidthOf_noMeta {db : List Datasheet} {v : View}
    (hm : hasCameraMetadata v = false) : sensorWidthOf db v = -1 := by
  unfold sensorWidthOf
  rw [hm]
  simp

theorem processView_buildMeta {cfg : Config} {db : List Datasheet} {s : PassState} {v : View}
    {mk md : String} {ds : Datasheet}
    (hid : v.intrinsicId = UndefinedIndexT) (hmk : v.make = some mk) (hmd : v.model = some md)
    (hdb : getInfo mk md db = some ds) (hmode : cfg.groupCameraModel ≠ 0) :
    (processView cfg db s v).2.1
      = { v with intrinsicId := cfg.hash (builtIntrinsic cfg db v) % 2 ^ 32 } := by
  have hmeta := hasCameraMetadata_true hmk hmd
  simp only [processView, buildStep, buildPublish, if_pos hid, hmeta, getD_make hmk,
    getD_model hmd, hdb, if_neg hmode, builtIntrinsic, sensorWidthOf_found hmk hmd hdb,
    if_true, ite_true]

theorem processView_buildNoMeta {cfg : Config} {db : List Datasheet} {s : PassState} {v : View}
    (hid : v.intrinsicId = UndefinedIndexT) (hm : hasCameraMetadata v = false)
    (hinc : cfg.allowIncompleteOutput = false) (hmode : cfg.groupCameraModel ≠ 0) :
    (processView cfg db s v).2.1
      = { v with intrinsicId := cfg.hash (builtIntrinsic cfg db v) % 2 ^ 32 } := by
  simp only [processView, buildStep, buildPublish, if_pos hid, hm, hinc, if_neg hmode,
    builtIntrinsic, sensorWidthOf_noMeta hm, Bool.false_eq_true, if_false, ite_false]

theorem lookupU_isSome_mem : ∀ (l : List ((String × String) × String)) (k : String × String),
    (lookupU l k).isSome = true → k ∈ l.map Prod.fst := by
  intro l
  induction l with
  | nil => intro k h; simp [lookupU] at h
  | cons a t ih =>
    intro k h
    by_cases hk : a.1 = k
    · simp [hk]
    · simp only [lookupU] at h
      rw [if_neg hk] at h
      simpa using Or.inr (ih k h)

theorem recordUnknown_mem (s : PassState) (mk md path : String) :
    (mk, md) ∈ (recordUnknown s mk md path).unknownSensors.map Prod.fst := by
  unfold recordUnknown
  by_cases h : (lookupU s.unknownSensors (mk, md)).isSome = true
  · simpa [h] using lookupU_isSome_mem _ _ h
  · simp only [h]
    simp

theorem recordUnknown_extends (s : PassState) (mk md path : String) :
    ∃ l, (recordUnknown s mk md path).unknownSensors = s.unknownSensors ++ l := by
  unfold recordUnknown
  by_cases h : (lookupU s.unknownSensors (mk, md)).isSome = true
  · exact ⟨[], by simp [h]⟩
  · exact ⟨[((mk, md), path)], by simp [h]⟩

theorem buildPublish_unknown (cfg : Config) (s : PassState) (v : View) (w : ℚ) :
    ((buildPublish cfg s v w).1).unknownSensors = s.unknownSensors := by
  unfold buildPublish
  by_cases hf : 0 < (getViewIntrinsic cfg v w).initialFocalLengthPix <;>
    simp only [hf, if_true, if_false, ite_true, ite_false] <;> split <;> simp

theorem processView_unknown_extends (cfg : Config) (db : List Datasheet) (s : PassState)
    (v : View) : ∃ l, ((processView cfg db s v).1).unknownSensors = s.unknownSensors ++ l := by
  unfold processView buildStep
  split
  · split
    · split
      · rw [buildPublish_unknown]
        exact ⟨[], by simp⟩
      · split
        · obtain ⟨l, hl⟩ := recordUnknown_extends s (v.make.getD "") (v.model.getD "") v.imagePath
          rw [buildPublish_unknown]
          exact ⟨l, hl⟩
        · obtain ⟨l, hl⟩ := recordUnknown_extends s (v.make.getD "") (v.model.getD "") v.imagePath
          exact ⟨l, hl⟩
    · split
      · exact ⟨[], by simp⟩
      · rw [buildPublish_unknown]
        exact ⟨[], by simp⟩
  · split
    · split
      · split
        · rw [buildPublish_unknown]
          exact ⟨[], by simp⟩
        · split
          · obtain ⟨l, hl⟩ := recordUnknown_extends s (v.make.getD "") (v.model.getD "") v.imagePath
            rw [buildPublish_unknown]
            exact ⟨l, hl⟩
          · obtain ⟨l, hl⟩ := recordUnknown_extends s (v.make.getD "") (v.model.getD "") v.imagePath
            exact ⟨l, hl⟩
      · split
        · exact ⟨[], by simp⟩
        · rw [buildPublish_unknown]
          exact ⟨[], by simp⟩
    · split
      · exact ⟨[], by simp⟩
      · split
        · obtain ⟨l, hl⟩ := recordUnknown_extends s (v.make.getD "") (v.model.getD "") v.imagePath
          exact ⟨l, hl⟩
        · exact ⟨[], by simp⟩

theorem runPass_length (cfg : Config) (db : List Datasheet) :
    ∀ (views : List View) (s : PassState),
    ((runPass cfg db s views).2).length = views.length := by
  intro views
  induction views with
  | nil => intro s; rfl
  | cons v t ih =>
    intro s
    simp only [runPass, List.length_cons]
    rw [ih]

theorem runPass_unknown_extends (cfg : Config) (db : List Datasheet) :
    ∀ (views : List View) (s : PassState),
    ∃ l, ((runPass cfg db s views).1).unknownSensors = s.unknownSensors ++ l := by
  intro views
  induction views with
  | nil => intro s; exact ⟨[], by simp [runPass]⟩
  | cons v t ih =>
    intro s
    obtain ⟨l1, h1⟩ := processView_unknown_extends cfg db s v
    obtain ⟨l2, h2⟩ := ih (processView cfg db s v).1
    refine ⟨l1 ++ l2, ?_⟩
    simp only [runPass]
    rw [h2, h1, List.append_assoc]

theorem buildStep_records_unknown {cfg : Config} {db : List Datasheet} {s : PassState}
    {v : View} {mk md : String}
    (hmk : v.make = some mk) (hmd : v.model = some md) (hdb : getInfo mk md db = none) :
    (mk, md) ∈ ((buildStep cfg db s v).1).unknownSensors.map Prod.fst := by
  have hmeta := hasCameraMetadata_true hmk hmd
  unfold buildStep
  rw [hmeta]
  simp only [if_true, ite_true, getD_make hmk, getD_model hmd, hdb]
  split
  · rw [buildPublish_unknown]
    exact recordUnknown_mem s mk md v.imagePath
  · exact recordUnknown_mem s mk md v.imagePath

theorem processView_records_unknown {cfg : Config} {db : List Datasheet} {s : PassState}
    {v : View} {mk md : String}
    (hmk : v.make = some mk) (hmd : v.model = some md) (hdb : getInfo mk md db = none)
    (hnc : v.intrinsicId = UndefinedIndexT ∨
      ∀ p, lookupI s.intrinsics v.intrinsicId = some p → p.initialFocalLengthPix ≤ 0) :
    (mk, md) ∈ ((processView cfg db s v).1).unknownSensors.map Prod.fst := by
  have hmeta := hasCameraMetadata_true hmk hmd
  have hbs : (mk, md) ∈ ((buildStep cfg db s v).1).unknownSensors.map Prod.fst :=
    buildStep_records_unknown hmk hmd hdb
  by_cases hid : v.intrinsicId = UndefinedIndexT
  · unfold processView
    rw [if_pos hid]
    exact hbs
  · have hnc' := hnc.resolve_left hid
    unfold processView
    rw [if_neg hid]
    cases hl : lookupI s.intrinsics v.intrinsicId with
    | none => exact hbs
    | some p =>
      have hle := hnc' p hl
      have hcond : hasCameraMetadata v = true
          ∧ getInfo (v.make.getD "") (v.model.getD "") db = none :=
        ⟨hmeta, by rw [getD_make hmk, getD_model hmd]; exact hdb⟩
      dsimp only
      rw [if_neg (not_lt.mpr hle), if_pos hcond, getD_make hmk, getD_model hmd]
      exact recordUnknown_mem s mk md v.imagePath

theorem runPass_append (cfg : Config) (db : List Datasheet) :
    ∀ (l1 l2 : List View) (s : PassState),
    runPass cfg db s (l1 ++ l2)
      = ((runPass cfg db (runPass cfg db s l1).1 l2).1,
         (runPass cfg db s l1).2 ++ (runPass cfg db (runPass cfg db s l1).1 l2).2) := by
  intro l1
  induction l1 with
  | nil => intro l2 s; simp [runPass]
  | cons v t ih =>
    intro l2 s
    simp only [List.cons_append, runPass, List.append_eq]
    rw [ih]

theorem runPass_complete (cfg : Config) (db : List Datasheet) :
    ∀ (views : List View) (s : PassState),
    (∀ v ∈ views, v.intrinsicId ≠ UndefinedIndexT ∧
      ∃ p, lookupI s.intrinsics v.intrinsicId = some p ∧ 0 < p.initialFocalLengthPix) →
    runPass cfg db s views
      = ({ s with completeViewCount := s.completeViewCount + views.length }, views) := by
  intro views
  induction views with
  | nil => intro s _; simp [runPass]
  | cons v t ih =>
    intro s h
    obtain ⟨hid, p, hl, hf⟩ := h v (by simp)
    have hstep := @processView_complete cfg db s v p hid hl hf
    simp only [runPass, hstep]
    have ht := ih { s with completeViewCount := s.completeViewCount + 1 }
      (fun w hw => h w (by simp [hw]))
    rw [ht]
    have : s.completeViewCount + 1 + t.length = s.completeViewCount + (t.length + 1) := by omega
    simp [this]

theorem runPass_noMeta (cfg : Config) (db : List Datasheet)
    (hinc : cfg.allowIncompleteOutput = true) :
    ∀ (views : List View) (s : PassState),
    (∀ v ∈ views, hasCameraMetadata v = false ∧ v.intrinsicId = UndefinedIndexT) →
    runPass cfg db s views
      = ({ s with noMetadataImagePaths :=
            s.noMetadataImagePaths ++ views.map View.imagePath }, views) := by
  intro views
  induction views with
  | nil => intro s _; simp [runPass]
  | cons v t ih =>
    intro s h
    obtain ⟨hm, hid⟩ := h v (by simp)
    have hstep := @processView_noMetaSkip cfg db s v hm hinc hid
    simp only [runPass, hstep]
    have ht := ih { s with noMetadataImagePaths := s.noMetadataImagePaths ++ [v.imagePath] }
      (fun w hw => h w (by simp [hw]))
    rw [ht]
    simp

/-! ### Claims -/

/-- Claim C4: `checkIntrinsicStringValidity` returns false for every K-matrix
string with fewer or more than 9 semicolon-separated fields, returns false
for every string of 9 fields that are all non-numeric, and for every string
of 9 valid numeric fields returns true and writes field 0 to the focal-length
output, field 2 to the ppx output and field 5 to the ppy output. -/
theorem checkIntrinsicStringValidity_spec (s : String) (f0 p0 q0 : ℚ) :
    ((splitSemi s).length ≠ 9 →
        checkIntrinsicStringValidity s f0 p0 q0 = (false, f0, p0, q0)) ∧
    ((splitSemi s).length = 9 →
        (∀ x ∈ splitSemi s, parseDouble x = none) →
        (checkIntrinsicStringValidity s f0 p0 q0).1 = false) ∧
    ((splitSemi s).length = 9 →
        (∀ x ∈ splitSemi s, (parseDouble x).isSome = true) →
        checkIntrinsicStringValidity s f0 p0 q0
          = (true, (parseDouble ((splitSemi s).getD 0 "")).getD 0,
                   (parseDouble ((splitSemi s).getD 2 "")).getD 0,
                   (parseDouble ((splitSemi s).getD 5 "")).getD 0)) := by
  obtain ⟨l, hl⟩ : ∃ l, splitSemi s = l := ⟨_, rfl⟩
  unfold checkIntrinsicStringValidity
  rw [hl]
  refine ⟨fun hlen => by rw [if_pos hlen], fun hlen hall => ?_, fun hlen hall => ?_⟩
  · rw [if_neg (by simp [hlen])]
    rcases l with _ | ⟨a1, t⟩
    · simp at hlen
    · have h1 : parseDouble a1 = none := hall a1 (by simp)
      simp only [kmatrixLoop, h1]
  · rw [if_neg (by simp [hlen])]
    rcases l with _ | ⟨a1, _ | ⟨a2, _ | ⟨a3, _ | ⟨a4, _ | ⟨a5, _ | ⟨a6, _ | ⟨a7, _ | ⟨a8, _ | ⟨a9, t⟩⟩⟩⟩⟩⟩⟩⟩⟩ <;>
        simp only [List.length_cons, List.length_nil] at hlen <;> try omega
    have ht : t = [] := List.length_eq_zero.mp (by omega)
    subst ht
    obtain ⟨v1, hv1⟩ := Option.isSome_iff_exists.mp (hall a1 (by simp))
    obtain ⟨v2, hv2⟩ := Option.isSome_iff_exists.mp (hall a2 (by simp))
    obtain ⟨v3, hv3⟩ := Option.isSome_iff_exists.mp (hall a3 (by simp))
    obtain ⟨v4, hv4⟩ := Option.isSome_iff_exists.mp (hall a4 (by simp))
    obtain ⟨v5, hv5⟩ := Option.isSome_iff_exists.mp (hall a5 (by simp))
    obtain ⟨v6, hv6⟩ := Option.isSome_iff_exists.mp (hall a6 (by simp))
    obtain ⟨v7, hv7⟩ := Option.isSome_iff_exists.mp (hall a7 (by simp))
    obtain ⟨v8, hv8⟩ := Option.isSome_iff_exists.mp (hall a8 (by simp))
    obtain ⟨v9, hv9⟩ := Option.isSome_iff_exists.mp (hall a9 (by simp))
    simp only [kmatrixLoop, hv1, hv2, hv3, hv4, hv5, hv6, hv7, hv8, hv9, List.getD]
    norm_num
    exact ⟨by simp [hv1], by simp [hv3], by simp [hv6]⟩

/-- Witness for C4: a 2-field string is rejected untouched; a 9-field string
of non-numbers is rejected; 9 numeric fields are accepted with the focal and
principal-point outputs extracted from fields 0, 2 and 5. -/
theorem checkIntrinsicStringValidity_spec_witness :
    checkIntrinsicStringValidity "1;2" 0 0 0 = (false, 0, 0, 0) ∧
    (checkIntrinsicStringValidity "a;b;c;d;e;f;g;h;i" 0 0 0).1 = false ∧
    checkIntrinsicStringValidity "100;0;50;0;100;40;0;0;1" 0 0 0
      = (true,
         (parseDouble ((splitSemi "100;0;50;0;100;40;0;0;1").getD 0 "")).getD 0,
         (parseDouble ((splitSemi "100;0;50;0;100;40;0;0;1").getD 2 "")).getD 0,
         (parseDouble ((splitSemi "100;0;50;0;100;40;0;0;1").getD 5 "")).getD 0) :=
  ⟨(checkIntrinsicStringValidity_spec "1;2" 0 0 0).1 (by decide),
   (checkIntrinsicStringValidity_spec "a;b;c;d;e;f;g;h;i" 0 0 0).2.1 (by decide) (by decide),
   (checkIntrinsicStringValidity_spec "100;0;50;0;100;40;0;0;1" 0 0 0).2.2 (by decide) (by decide)⟩

unseal Rat.mul Rat.inv Rat.add Rat.sub Rat.ofScientific in
/-- Claim C10: `checkIntrinsicStringValidity` accepts a 9-field string whose
first field is a valid numeric value followed by trailing non-numeric
characters (`"3.5abc"`): the extraction reads only the numeric value `3.5`
into the focal output and the function returns true, so a field need not be
entirely numeric. -/
theorem checkIntrinsic_numericTrailingJunkAccepted :
    checkIntrinsicStringValidity "3.5abc;0;500;0;1000;400;0;0;1" 0 0 0
      = (true, 7 / 2, 500, 400) ∧ parseDouble "3.5abc" = some (7 / 2) := by
  decide

/-! ### Concrete sample inputs used by witnesses and counterexamples -/

/-- An injective-in-practice encoding of a string. -/
def encStr (s : String) : Nat := s.data.foldl (fun a c => a * 1114112 + c.toNat + 1) 0

/-- An injective encoding of a rational. -/
def encQ (q : ℚ) : Nat :=
  Nat.pair q.num.natAbs (Nat.pair (if q.num < 0 then 1 else 0) q.den)

/-- A concrete parameter encoding standing in for `hashValue` in witnesses. -/
def encodeParams (p : IntrinsicParams) : Nat :=
  Nat.pair p.family (Nat.pair (encQ p.initialFocalLengthPix)
    (Nat.pair (encQ p.ppx) (Nat.pair (encQ p.ppy) (encStr p.serialNumber))))

/-- A concrete run configuration: default grouping mode, explicit defaults
for focal length and principal point, incomplete output disallowed. -/
def cfgW : Config :=
  ⟨1000, -1, 0, 50, 40, 2, false, false,
   fun p => encodeParams p % 2 ^ 31, fun i => i, fun _ w => w⟩

/-- A concrete sensor database with two known models of one make. -/
def dbW : List Datasheet := [⟨"CanonX", "M1", 36⟩, ⟨"CanonX", "M2", 24⟩]

/-- A concrete complete intrinsic (positive focal length). -/
def pW : IntrinsicParams := ⟨0, 1000, 50, 40, "x"⟩

/-- A concrete incomplete intrinsic (unknown focal length sentinel). -/
def pIncompleteW : IntrinsicParams := ⟨0, -1, 50, 40, "y"⟩

/-- A view already assigned to intrinsic group 7. -/
def vDoneW (i : Nat) : View := ⟨i, "/d/x.jpg", 100, 80, none, none, none, 7, none⟩

/-- An unassigned view with metadata of a known make and the given model. -/
def vMetaW (i : Nat) (mdl : String) : View :=
  ⟨i, "/d/a.jpg", 100, 80, some "CanonX", some mdl, none, UndefinedIndexT, none⟩

/-- An unassigned view whose make/model is not in the database. -/
def vUnkW : View := ⟨3, "/d/u.jpg", 100, 80, some "FooCam", some "Z9", none, UndefinedIndexT, none⟩

/-- An unassigned view with no metadata at the given path. -/
def vNoMetaW (i : Nat) (path : String) : View :=
  ⟨i, path, 100, 80, none, none, none, UndefinedIndexT, none⟩

/-- An unassigned metadata-less rig view with the given rig and sub-pose ids. -/
def vRigW (i : Nat) (r sp : Nat) : View :=
  ⟨i, "/d/r.jpg", 100, 80, none, none, none, UndefinedIndexT, some ⟨r, sp⟩⟩

/-- Claim C8: re-running the per-view pass on a dataset in which every view
already has an assigned group id whose intrinsic exists and has a positive
initial focal length leaves every view, the intrinsic mapping and both
anomaly records unchanged, records no anomalies, and counts every view as
complete. -/
theorem rerunPass_idempotent (cfg : Config) (db : List Datasheet)
    (intr0 : List (Nat × IntrinsicParams)) (views : List View)
    (h : ∀ v ∈ views, v.intrinsicId ≠ UndefinedIndexT ∧
      ∃ p, lookupI intr0 v.intrinsicId = some p ∧ 0 < p.initialFocalLengthPix) :
    runPassInit cfg db intr0 views
      = ({ intrinsics := intr0, unknownSensors := [], noMetadataImagePaths := [],
           completeViewCount := views.length, randIdx := 0 }, views) := by
  unfold runPassInit initState
  rw [runPass_complete cfg db views _ (fun v hv => h v hv)]
  simp

/-- Witness for C8: a pre-assigned dataset of two complete views passes
through unchanged, with both views counted complete. -/
theorem rerunPass_idempotent_witness :
    runPassInit cfgW dbW [(7, pW)] [vDoneW 1, vDoneW 2]
      = ({ intrinsics := [(7, pW)], unknownSensors := [], noMetadataImagePaths := [],
           completeViewCount := 2, randIdx := 0 }, [vDoneW 1, vDoneW 2]) :=
  rerunPass_idempotent cfgW dbW [(7, pW)] [vDoneW 1, vDoneW 2]
    (by
      intro v hv
      simp only [List.mem_cons, List.not_mem_nil, or_false] at hv
      rcases hv with hv | hv
      · subst hv; exact ⟨by decide, pW, by decide, by decide⟩
      · subst hv; exact ⟨by decide, pW, by decide, by decide⟩)

/-- Counterexample to C6 as stated: with incomplete output allowed, three
metadata-less views in one folder are recorded with a warning and the run
succeeds, but no folder-based intrinsic group is produced — the intrinsic
mapping stays empty and every view is left unassigned, so the "one shared
folder-based intrinsic group" of the claim does not exist. -/
theorem noMetadataScenario_noGroupProduced :
    (runPassInit { cfgW with allowIncompleteOutput := true } [] []
        [vNoMetaW 1 "/d/a.jpg", vNoMetaW 2 "/d/b.jpg", vNoMetaW 3 "/d/c.jpg"]).1.intrinsics
      = [] ∧
    (runPassInit { cfgW with allowIncompleteOutput := true } [] []
        [vNoMetaW 1 "/d/a.jpg", vNoMetaW 2 "/d/b.jpg", vNoMetaW 3 "/d/c.jpg"]).2.map
        View.intrinsicId = [UndefinedIndexT, UndefinedIndexT, UndefinedIndexT] := by
  decide

/-- Claim C6 (amended): in default mode with incompleteness allowed, a run
over views all lacking Make/Model metadata records each image path in the
no-metadata list (the emitted warning lists exactly those paths), does not
fail, and marks every view unassigned without building any intrinsic: the
intrinsic mapping is unchanged and no folder-based group is produced
(folder-based grouping only happens when incomplete output is disallowed). -/
theorem noMetadataAllowIncomplete_run (cfg : Config) (db : List Datasheet)
    (intr0 : List (Nat × IntrinsicParams)) (views : List View)
    (_hmode : cfg.groupCameraModel = 2) (hinc : cfg.allowIncompleteOutput = true)
    (hne : views ≠ [])
    (hall : ∀ v ∈ views, hasCameraMetadata v = false ∧ v.intrinsicId = UndefinedIndexT) :
    (runPassInit cfg db intr0 views).1.noMetadataImagePaths = views.map View.imagePath ∧
    (runPassInit cfg db intr0 views).1.intrinsics = intr0 ∧
    (runPassInit cfg db intr0 views).1.unknownSensors = [] ∧
    (runPassInit cfg db intr0 views).2 = views ∧
    runSuccess cfg db intr0 views = true := by
  have hrun := runPass_noMeta cfg db hinc views (initState intr0) hall
  have hemp : views.isEmpty = false := by
    cases views
    · exact absurd rfl hne
    · rfl
  unfold runPassInit
  rw [hrun]
  refine ⟨by simp [initState], rfl, rfl, rfl, ?_⟩
  unfold runSuccess runPassInit
  rw [hemp, hrun, hinc]
  simp [initState]

/-- Witness for C6 (amended): three metadata-less images in one folder with
incompleteness allowed — all three paths recorded, mapping unchanged, no
unknown-sensor entry, views returned unassigned, run succeeds. -/
theorem noMetadataAllowIncomplete_run_witness :
    (runPassInit { cfgW with allowIncompleteOutput := true } [] []
        [vNoMetaW 1 "/d/a.jpg", vNoMetaW 2 "/d/b.jpg", vNoMetaW 3 "/d/c.jpg"]).1.noMetadataImagePaths
      = ["/d/a.jpg", "/d/b.jpg", "/d/c.jpg"] ∧
    (runPassInit { cfgW with allowIncompleteOutput := true } [] []
        [vNoMetaW 1 "/d/a.jpg", vNoMetaW 2 "/d/b.jpg", vNoMetaW 3 "/d/c.jpg"]).1.intrinsics = [] ∧
    runSuccess { cfgW with allowIncompleteOutput := true } [] []
        [vNoMetaW 1 "/d/a.jpg", vNoMetaW 2 "/d/b.jpg", vNoMetaW 3 "/d/c.jpg"] = true := by
  have h := noMetadataAllowIncomplete_run { cfgW with allowIncompleteOutput := true } [] []
    [vNoMetaW 1 "/d/a.jpg", vNoMetaW 2 "/d/b.jpg", vNoMetaW 3 "/d/c.jpg"]
    (by decide) (by decide) (by decide) (by decide)
  exact ⟨h.1, h.2.1, h.2.2.2.2⟩

/-- Counterexample to C2 as stated: a view whose (make, model) pair is
absent from the database but which already references a complete intrinsic
is never looked up: the unknown-sensor ledger stays empty and the run
succeeds even though incomplete output is disallowed. -/
theorem unknownSensor_preassignedComplete_notRecorded :
    (runPassInit { cfgW with allowSingleView := true } dbW [(7, pW)]
        [{ vUnkW with intrinsicId := 7 }]).1.unknownSensors = [] ∧
    ({ cfgW with allowSingleView := true } : Config).allowIncompleteOutput = false ∧
    runSuccess { cfgW with allowSingleView := true } dbW [(7, pW)]
        [{ vUnkW with intrinsicId := 7 }] = true := by
  decide

/-- Claim C2 (amended): for every view whose metadata has Make and Model,
whose (make, model) pair is not in the sensor database, and which does not
reference a complete intrinsic (one with positive initial focal length) at
the moment the pass processes it — it is unassigned, its assigned id is
dangling, or the intrinsic it references has an unknown focal length — the
run records that pair in the unknown-sensor ledger, processes every view of
the pass (no abort), and exits with failure precisely when incomplete
output is disallowed; with that view as the single input the ledger holds
exactly that pair with the view's image path.  The view's position in the
run is exposed as `pre ++ v :: post`, and the non-completeness condition is
stated against the state after the views before it, since a view processed
earlier can publish a complete intrinsic under a dangling forced id. -/
theorem unknownSensor_recorded (cfg : Config) (db : List Datasheet)
    (intr0 : List (Nat × IntrinsicParams)) (pre post : List View) (v : View) (mk md : String)
    (hmk : v.make = some mk) (hmd : v.model = some md)
    (hdb : getInfo mk md db = none)
    (hnc : v.intrinsicId = UndefinedIndexT ∨
      ∀ p, lookupI (runPass cfg db (initState intr0) pre).1.intrinsics v.intrinsicId
          = some p → p.initialFocalLengthPix ≤ 0) :
    ((mk, md) ∈ (runPassInit cfg db intr0 (pre ++ v :: post)).1.unknownSensors.map Prod.fst) ∧
    ((runPassInit cfg db intr0 (pre ++ v :: post)).2.length = (pre ++ v :: post).length) ∧
    (runSuccess cfg db intr0 (pre ++ v :: post) = false
      ↔ cfg.allowIncompleteOutput = false) ∧
    (pre = [] → post = [] →
      (runPassInit cfg db intr0 [v]).1.unknownSensors = [((mk, md), v.imagePath)]) := by
  have hmem : (mk, md)
      ∈ (runPassInit cfg db intr0 (pre ++ v :: post)).1.unknownSensors.map Prod.fst := by
    unfold runPassInit
    rw [runPass_append cfg db pre (v :: post) (initState intr0)]
    simp only [runPass]
    obtain ⟨l, hl⟩ := runPass_unknown_extends cfg db post
      (processView cfg db (runPass cfg db (initState intr0) pre).1 v).1
    rw [hl, List.map_append]
    exact List.mem_append_left _ (processView_records_unknown hmk hmd hdb hnc)
  have hemp : (pre ++ v :: post).isEmpty = false := by
    cases pre <;> rfl
  refine ⟨hmem, runPass_length cfg db (pre ++ v :: post) (initState intr0), ?_, ?_⟩
  · constructor
    · intro hfail
      by_contra hinc
      have hinc' : cfg.allowIncompleteOutput = true := by
        cases h : cfg.allowIncompleteOutput
        · exact absurd h hinc
        · rfl
      unfold runSuccess at hfail
      rw [hemp] at hfail
      simp only [Bool.false_eq_true, if_false, hinc'] at hfail
      split at hfail
      · simp_all
      · split at hfail
        · simp_all
        · simp at hfail
    · intro hinc
      unfold runSuccess
      rw [hemp]
      have hne : (runPassInit cfg db intr0 (pre ++ v :: post)).1.unknownSensors.isEmpty
          = false := by
        cases h : (runPassInit cfg db intr0 (pre ++ v :: post)).1.unknownSensors with
        | nil =>
          rw [h] at hmem
          simp at hmem
        | cons a t => rfl
      simp only [Bool.false_eq_true, if_false, hne, hinc]
      simp
  · intro hpre hpost
    subst hpre
    subst hpost
    have hnc0 : v.intrinsicId = UndefinedIndexT ∨
        ∀ p, lookupI intr0 v.intrinsicId = some p → p.initialFocalLengthPix ≤ 0 := by
      rcases hnc with h | h
      · exact Or.inl h
      · right
        intro p hp
        apply h p
        simpa [runPass, initState] using hp
    have hrec : recordUnknown (initState intr0) mk md v.imagePath
        = { initState intr0 with unknownSensors := [((mk, md), v.imagePath)] } := by
      unfold recordUnknown initState
      simp [lookupU]
    by_cases hid : v.intrinsicId = UndefinedIndexT
    · unfold runPassInit runPass processView buildStep
      rw [if_pos hid, hasCameraMetadata_true hmk hmd]
      simp only [if_true, ite_true, getD_make hmk, getD_model hmd, hdb]
      split
      · rw [hrec]
        simp only [runPass]
        rw [buildPublish_unknown]
      · rw [hrec]
        simp only [runPass]
    · have hnc1 : ∀ p, lookupI intr0 v.intrinsicId = some p →
          p.initialFocalLengthPix ≤ 0 := hnc0.resolve_left hid
      unfold runPassInit runPass processView
      rw [if_neg hid]
      cases hl : lookupI (initState intr0).intrinsics v.intrinsicId with
      | none =>
        unfold buildStep
        rw [hasCameraMetadata_true hmk hmd]
        simp only [if_true, ite_true, getD_make hmk, getD_model hmd, hdb]
        split
        · rw [hrec]
          simp only [runPass]
          rw [buildPublish_unknown]
        · rw [hrec]
          simp only [runPass]
      | some p =>
        have hle := hnc1 p (by simpa [initState] using hl)
        have hcond : hasCameraMetadata v = true
            ∧ getInfo (v.make.getD "") (v.model.getD "") db = none :=
          ⟨hasCameraMetadata_true hmk hmd, by rw [getD_make hmk, getD_model hmd]; exact hdb⟩
        dsimp only
        rw [if_neg (not_lt.mpr hle), if_pos hcond, getD_make hmk, getD_model hmd]
        rw [hrec]
        simp only [runPass]

/-- Witness for C2 (amended): a single unknown-sensor image with incomplete
output disallowed is recorded, processed and fails the run with the ledger
holding exactly that pair; the pair is recorded likewise for a view
referencing an incomplete intrinsic and for a view with a dangling
intrinsic id. -/
theorem unknownSensor_recorded_witness :
    ((("FooCam", "Z9") : String × String) ∈
      (runPassInit cfgW dbW [] [vUnkW]).1.unknownSensors.map Prod.fst) ∧
    (runPassInit cfgW dbW [] [vUnkW]).2.length = 1 ∧
    runSuccess cfgW dbW [] [vUnkW] = false ∧
    (runPassInit cfgW dbW [] [vUnkW]).1.unknownSensors = [(("FooCam", "Z9"), "/d/u.jpg")] ∧
    ((("FooCam", "Z9") : String × String) ∈
      (runPassInit cfgW dbW [(9, pIncompleteW)]
        [{ vUnkW with intrinsicId := 9 }]).1.unknownSensors.map Prod.fst) ∧
    ((("FooCam", "Z9") : String × String) ∈
      (runPassInit cfgW dbW []
        [{ vUnkW with intrinsicId := 11 }]).1.unknownSensors.map Prod.fst) := by
  have h1 := unknownSensor_recorded cfgW dbW [] [] [] vUnkW "FooCam" "Z9"
    (by decide) (by decide) (by decide) (Or.inl (by decide))
  have h2 := unknownSensor_recorded cfgW dbW [(9, pIncompleteW)] [] []
    { vUnkW with intrinsicId := 9 } "FooCam" "Z9"
    (by decide) (by decide) (by decide)
    (Or.inr (by
      intro p hp
      have hq : lookupI (runPass cfgW dbW (initState [(9, pIncompleteW)]) []).1.intrinsics
          ({ vUnkW with intrinsicId := 9 } : View).intrinsicId = some pIncompleteW := by
        decide
      rw [hq] at hp
      injection hp with hp2
      rw [← hp2]
      decide))
  have h3 := unknownSensor_recorded cfgW dbW [] [] []
    { vUnkW with intrinsicId := 11 } "FooCam" "Z9"
    (by decide) (by decide) (by decide)
    (Or.inr (by
      intro p hp
      have hq : lookupI (runPass cfgW dbW (initState []) []).1.intrinsics
          ({ vUnkW with intrinsicId := 11 } : View).intrinsicId = none := by decide
      rw [hq] at hp
      simp at hp))
  exact ⟨h1.1, h1.2.1, h1.2.2.1.mpr rfl, h1.2.2.2 rfl rfl, h2.1, h3.1⟩

/-- Counterexample to C3 as stated: with incomplete output disallowed, a run
holding two complete views (meeting the minimum of two) still exits with
failure when an unknown-sensor anomaly was recorded, so end-of-run failure
is not equivalent to the complete-view count being below the minimum. -/
theorem completeness_not_only_failure_cause :
    (runPassInit cfgW dbW [(7, pW)] [vDoneW 1, vDoneW 2, vUnkW]).1.completeViewCount = 2 ∧
    cfgW.allowSingleView = false ∧
    runSuccess cfgW dbW [(7, pW)] [vDoneW 1, vDoneW 2, vUnkW] = false := by
  decide

/-- Claim C3 (amended): when incomplete output is disallowed and the
unknown-sensor ledger ends up empty, the run exits with failure exactly when
the complete-view count is below the minimum — below 2 with single-view mode
off, below 1 with it on; in particular with exactly one complete view the
run succeeds precisely when single-view mode is on. -/
theorem completenessGate (cfg : Config) (db : List Datasheet)
    (intr0 : List (Nat × IntrinsicParams)) (views : List View)
    (hinc : cfg.allowIncompleteOutput = false) (hne : views ≠ [])
    (hunk : (runPassInit cfg db intr0 views).1.unknownSensors = []) :
    (runSuccess cfg db intr0 views = false ↔
      (runPassInit cfg db intr0 views).1.completeViewCount
        < (if cfg.allowSingleView = true then 1 else 2)) ∧
    ((runPassInit cfg db intr0 views).1.completeViewCount = 1 →
      (runSuccess cfg db intr0 views = true ↔ cfg.allowSingleView = true)) := by
  have hemp : views.isEmpty = false := by
    cases views
    · exact absurd rfl hne
    · rfl
  have hmain : runSuccess cfg db intr0 views = false ↔
      (runPassInit cfg db intr0 views).1.completeViewCount
        < (if cfg.allowSingleView = true then 1 else 2) := by
    unfold runSuccess
    rw [hemp]
    simp only [Bool.false_eq_true, if_false]
    rw [hunk]
    simp only [List.isEmpty_nil, not_true, false_and, if_false, hinc, true_and]
    cases hsv : cfg.allowSingleView
    · simp only [Bool.false_eq_true, not_false_iff, and_true, if_false, ite_false]
      split
      · rename_i hc
        simp only [eq_self_iff_true, true_iff]
        omega
      · rename_i hc
        simp only [Bool.true_eq_false, false_iff, not_lt]
        omega
    · simp only [Bool.true_eq_false, and_false, or_false, if_true, ite_true]
      split
      · rename_i hc
        simp only [eq_self_iff_true, true_iff]
        omega
      · rename_i hc
        simp only [Bool.true_eq_false, false_iff, not_lt]
        omega
  refine ⟨hmain, fun h1 => ?_⟩
  rw [h1] at hmain
  cases hsv : cfg.allowSingleView
  · rw [hsv] at hmain
    simp only [Bool.false_eq_true, if_false, ite_false] at hmain
    have : runSuccess cfg db intr0 views = false := hmain.mpr (by omega)
    simp [this]
  · rw [hsv] at hmain
    simp only [if_true, ite_true] at hmain
    have hnot : ¬ runSuccess cfg db intr0 views = false := fun hf => by
      have := hmain.mp hf
      omega
    constructor
    · intro _; rfl
    · intro _
      cases hr : runSuccess cfg db intr0 views
      · exact absurd hr hnot
      · rfl

/-- Witness for C3 (amended): a single complete view with an empty ledger —
the run succeeds when a single view is allowed and fails when it is not. -/
theorem completenessGate_witness :
    runSuccess { cfgW with allowSingleView := true } dbW [(7, pW)] [vDoneW 1] = true ∧
    runSuccess cfgW dbW [(7, pW)] [vDoneW 1] = false := by
  constructor
  · exact ((completenessGate { cfgW with allowSingleView := true } dbW [(7, pW)] [vDoneW 1]
      rfl (by decide) (by decide)).2 (by decide)).mpr rfl
  · exact (completenessGate cfgW dbW [(7, pW)] [vDoneW 1]
      rfl (by decide) (by decide)).1.mpr (by decide)

/-- Claim C1: in the default grouping mode (`groupCameraModel = 2`), two
views that are built (unassigned, metadata present, sensor found) are
assigned exactly the 32-bit truncations of the parameter hashes of their
built intrinsics; hence identical built parameters (make/model entering
through the serial number, derived focal length, principal point, model
family) give the same group id, and different built parameters give
different group ids under the assumed collision-freedom of the hash. -/
theorem defaultGrouping_byParamHash (cfg : Config) (db : List Datasheet)
    (intr0 : List (Nat × IntrinsicParams)) (v1 v2 : View) (mk1 md1 mk2 md2 : String)
    (ds1 ds2 : Datasheet)
    (hmode : cfg.groupCameraModel = 2)
    (h1id : v1.intrinsicId = UndefinedIndexT) (h2id : v2.intrinsicId = UndefinedIndexT)
    (h1mk : v1.make = some mk1) (h1md : v1.model = some md1)
    (h2mk : v2.make = some mk2) (h2md : v2.model = some md2)
    (h1db : getInfo mk1 md1 db = some ds1) (h2db : getInfo mk2 md2 db = some ds2)
    (hcf : builtIntrinsic cfg db v1 ≠ builtIntrinsic cfg db v2 →
      cfg.hash (builtIntrinsic cfg db v1) % 2 ^ 32
        ≠ cfg.hash (builtIntrinsic cfg db v2) % 2 ^ 32) :
    ((runPassInit cfg db intr0 [v1, v2]).2.map View.intrinsicId
      = [cfg.hash (builtIntrinsic cfg db v1) % 2 ^ 32,
         cfg.hash (builtIntrinsic cfg db v2) % 2 ^ 32]) ∧
    (builtIntrinsic cfg db v1 = builtIntrinsic cfg db v2 →
      cfg.hash (builtIntrinsic cfg db v1) % 2 ^ 32
        = cfg.hash (builtIntrinsic cfg db v2) % 2 ^ 32) ∧
    (builtIntrinsic cfg db v1 ≠ builtIntrinsic cfg db v2 →
      cfg.hash (builtIntrinsic cfg db v1) % 2 ^ 32
        ≠ cfg.hash (builtIntrinsic cfg db v2) % 2 ^ 32) := by
  have hm0 : cfg.groupCameraModel ≠ 0 := by rw [hmode]; decide
  refine ⟨?_, fun h => by rw [h], hcf⟩
  have e1 := @processView_buildMeta cfg db (initState intr0) v1 mk1 md1 ds1 h1id h1mk h1md h1db hm0
  have e2 := @processView_buildMeta cfg db (processView cfg db (initState intr0) v1).1 v2
    mk2 md2 ds2 h2id h2mk h2md h2db hm0
  simp only [runPassInit, runPass, List.map_cons, List.map_nil, e1, e2]

/-- Witness for C1: two identical-metadata views share one group id; views
whose built parameters differ (different camera model, hence different
serial) get different group ids under the concrete hash. -/
theorem defaultGrouping_byParamHash_witness :
    ((runPassInit cfgW dbW [] [vMetaW 1 "M1", vMetaW 2 "M1"]).2.map View.intrinsicId
      = [cfgW.hash (builtIntrinsic cfgW dbW (vMetaW 1 "M1")) % 2 ^ 32,
         cfgW.hash (builtIntrinsic cfgW dbW (vMetaW 2 "M1")) % 2 ^ 32]) ∧
    cfgW.hash (builtIntrinsic cfgW dbW (vMetaW 1 "M1")) % 2 ^ 32
      = cfgW.hash (builtIntrinsic cfgW dbW (vMetaW 2 "M1")) % 2 ^ 32 ∧
    ((runPassInit cfgW dbW [] [vMetaW 3 "M1", vMetaW 4 "M2"]).2.map View.intrinsicId
      = [cfgW.hash (builtIntrinsic cfgW dbW (vMetaW 3 "M1")) % 2 ^ 32,
         cfgW.hash (builtIntrinsic cfgW dbW (vMetaW 4 "M2")) % 2 ^ 32]) ∧
    cfgW.hash (builtIntrinsic cfgW dbW (vMetaW 3 "M1")) % 2 ^ 32
      ≠ cfgW.hash (builtIntrinsic cfgW dbW (vMetaW 4 "M2")) % 2 ^ 32 := by
  have h1 := defaultGrouping_byParamHash cfgW dbW [] (vMetaW 1 "M1") (vMetaW 2 "M1")
    "CanonX" "M1" "CanonX" "M1" ⟨"CanonX", "M1", 36⟩ ⟨"CanonX", "M1", 36⟩
    rfl (by decide) (by decide) (by decide) (by decide) (by decide) (by decide)
    (by decide) (by decide) (by decide)
  have h2 := defaultGrouping_byParamHash cfgW dbW [] (vMetaW 3 "M1") (vMetaW 4 "M2")
    "CanonX" "M1" "CanonX" "M2" ⟨"CanonX", "M1", 36⟩ ⟨"CanonX", "M2", 24⟩
    rfl (by decide) (by decide) (by decide) (by decide) (by decide) (by decide)
    (by decide) (by decide) (by decide)
  exact ⟨h1.1, h1.2.1 (by decide), h2.1, h2.2.2 (by decide)⟩

theorem builtIntrinsic_rigSerial {cfg : Config} {db : List Datasheet} {v : View} {r : RigInfo}
    (hm : hasCameraMetadata v = false) (hr : v.rig = some r) :
    (builtIntrinsic cfg db v).serialNumber = rigSerial r.rigId r.subPoseId := by
  unfold builtIntrinsic applySerialOverride
  rw [hm]
  simp only [Bool.false_eq_true, if_false, hr]

theorem builtIntrinsic_pathIndependent {cfg : Config} {db : List Datasheet} {v : View}
    {r : RigInfo} (hm : hasCameraMetadata v = false) (hr : v.rig = some r) (q : String) :
    builtIntrinsic cfg db { v with imagePath := q } = builtIntrinsic cfg db v := by
  have hm' : hasCameraMetadata { v with imagePath := q } = false := hm
  have hrig : ({ v with imagePath := q } : View).rig = some r := hr
  unfold builtIntrinsic
  rw [sensorWidthOf_noMeta hm', sensorWidthOf_noMeta hm]
  unfold applySerialOverride
  rw [hm', hm, hrig]
  simp only [Bool.false_eq_true, if_false]
  split <;> rfl

/-- Claim C7 (amended): for a rig view without Make/Model metadata that
reaches the build (incomplete output disallowed) in a hash-based grouping
mode (`groupCameraModel ≠ 0`), the assigned group id is the hash of the
built parameters whose serial number is the rig tag: it does not depend on
the image's folder, and two rig views with different (rig id, sub-pose id)
get different group ids under hash collision-freedom.  In mode 0 the id is
a fresh per-view random value rather than a function of the rig tag. -/
theorem rigGrouping_overridesFolder (cfg : Config) (db : List Datasheet)
    (intr0 : List (Nat × IntrinsicParams)) (v1 v2 : View) (r1 r2 : RigInfo)
    (hmode : cfg.groupCameraModel ≠ 0) (hinc : cfg.allowIncompleteOutput = false)
    (h1m : hasCameraMetadata v1 = false) (h2m : hasCameraMetadata v2 = false)
    (h1id : v1.intrinsicId = UndefinedIndexT) (h2id : v2.intrinsicId = UndefinedIndexT)
    (h1r : v1.rig = some r1) (h2r : v2.rig = some r2)
    (hcf : builtIntrinsic cfg db v1 ≠ builtIntrinsic cfg db v2 →
      cfg.hash (builtIntrinsic cfg db v1) % 2 ^ 32
        ≠ cfg.hash (builtIntrinsic cfg db v2) % 2 ^ 32) :
    ((runPassInit cfg db intr0 [v1, v2]).2.map View.intrinsicId
      = [cfg.hash (builtIntrinsic cfg db v1) % 2 ^ 32,
         cfg.hash (builtIntrinsic cfg db v2) % 2 ^ 32]) ∧
    (∀ q, builtIntrinsic cfg db { v1 with imagePath := q } = builtIntrinsic cfg db v1) ∧
    ((builtIntrinsic cfg db v1).serialNumber = rigSerial r1.rigId r1.subPoseId) ∧
    (r1 ≠ r2 →
      cfg.hash (builtIntrinsic cfg db v1) % 2 ^ 32
        ≠ cfg.hash (builtIntrinsic cfg db v2) % 2 ^ 32) := by
  refine ⟨?_, fun q => builtIntrinsic_pathIndependent h1m h1r q,
    builtIntrinsic_rigSerial h1m h1r, fun hr12 => ?_⟩
  · have e1 := @processView_buildNoMeta cfg db (initState intr0) v1 h1id h1m hinc hmode
    have e2 := @processView_buildNoMeta cfg db (processView cfg db (initState intr0) v1).1 v2
      h2id h2m hinc hmode
    simp only [runPassInit, runPass, List.map_cons, List.map_nil, e1, e2]
  · apply hcf
    intro heq
    have hs := congrArg IntrinsicParams.serialNumber heq
    rw [builtIntrinsic_rigSerial h1m h1r, builtIntrinsic_rigSerial h2m h2r] at hs
    have := rigSerial_inj hs
    apply hr12
    cases r1
    cases r2
    simp_all

/-- Counterexample to C7 as stated: in grouping mode 0 (a grouping mode),
two metadata-less rig views with the same (rig id, sub-pose id) and the same
image folder receive different group ids from the random generator, so the
group id is not determined by the (rig id, sub-pose id) pair. -/
theorem rigGrouping_mode0_notDetermined :
    (vRigW 1 1 2).rig = (vRigW 2 1 2).rig ∧
    (vRigW 1 1 2).imagePath = (vRigW 2 1 2).imagePath ∧
    (runPassInit { cfgW with groupCameraModel := 0 } [] []
        [vRigW 1 1 2, vRigW 2 1 2]).2.map View.intrinsicId = [0, 1] := by
  decide

/-- Witness for C7 (amended): two rig views with sub-poses 2 and 3 in the
same folder get the rig-tag hashes as ids, and those ids differ. -/
theorem rigGrouping_overridesFolder_witness :
    ((runPassInit cfgW [] [] [vRigW 1 1 2, vRigW 2 1 3]).2.map View.intrinsicId
      = [cfgW.hash (builtIntrinsic cfgW [] (vRigW 1 1 2)) % 2 ^ 32,
         cfgW.hash (builtIntrinsic cfgW [] (vRigW 2 1 3)) % 2 ^ 32]) ∧
    (builtIntrinsic cfgW [] (vRigW 1 1 2)).serialNumber = rigSerial 1 2 ∧
    cfgW.hash (builtIntrinsic cfgW [] (vRigW 1 1 2)) % 2 ^ 32
      ≠ cfgW.hash (builtIntrinsic cfgW [] (vRigW 2 1 3)) % 2 ^ 32 := by
  have h := rigGrouping_overridesFolder cfgW [] [] (vRigW 1 1 2) (vRigW 2 1 3)
    ⟨1, 2⟩ ⟨1, 3⟩ (by decide) rfl (by decide) (by decide) (by decide) (by decide)
    (by decide) (by decide) (by decide)
  exact ⟨h.1, h.2.2.1, h.2.2.2 (by decide)⟩

/-- Claim C5: the pass evaluated at a failing input for grouping mode 1
(`BY_METADATA_ELSE_PER_VIEW`): two views without Make/Model metadata, in two
different folders, with incomplete output disallowed, are both assigned the
same hash-based group id — one shared intrinsic group — instead of the
per-view unique ids that the option's own help text describes for
metadata-less views in this mode. -/
theorem mode1_noMetadata_sharedGroup :
    parentPath (vNoMetaW 1 "/d1/a.jpg").imagePath
      ≠ parentPath (vNoMetaW 2 "/d2/b.jpg").imagePath ∧
    (runPassInit { cfgW with groupCameraModel := 1 } [] []
        [vNoMetaW 1 "/d1/a.jpg", vNoMetaW 2 "/d2/b.jpg"]).2.map View.intrinsicId
      = [({ cfgW with groupCameraModel := 1 } : Config).hash
           (builtIntrinsic { cfgW with groupCameraModel := 1 } [] (vNoMetaW 1 "/d1/a.jpg"))
           % 2 ^ 32,
         ({ cfgW with groupCameraModel := 1 } : Config).hash
           (builtIntrinsic { cfgW with groupCameraModel := 1 } [] (vNoMetaW 1 "/d1/a.jpg"))
           % 2 ^ 32] := by
  decide

theorem buildPublish_id_ne_sentinel (cfg : Config) (s : PassState) (v : View) (w : ℚ)
    (iid : Nat) (p : IntrinsicParams)
    (hq : ∀ q, cfg.hash q % 2 ^ 32 ≠ UndefinedIndexT)
    (hpub : (buildPublish cfg s v w).2.2 = some (iid, p)) : iid ≠ UndefinedIndexT := by
  unfold buildPublish at hpub
  by_cases hm : cfg.groupCameraModel = 0
  · simp only [hm, if_true, ite_true] at hpub
    rw [Option.some.injEq, Prod.mk.injEq] at hpub
    obtain ⟨h1, _⟩ := hpub
    rw [← h1]
    have hlt : cfg.rands (if 0 < (getViewIntrinsic cfg v w).initialFocalLengthPix then
        { s with completeViewCount := s.completeViewCount + 1 } else s).randIdx % 2 ^ 31
        < 2 ^ 31 := Nat.mod_lt _ (by norm_num)
    unfold UndefinedIndexT
    omega
  · simp only [hm, Bool.false_eq_true, if_false, ite_false] at hpub
    rw [Option.some.injEq, Prod.mk.injEq] at hpub
    obtain ⟨h1, _⟩ := hpub
    rw [← h1]
    split
    · exact hq _
    · assumption

theorem buildStep_id_ne_sentinel (cfg : Config) (db : List Datasheet) (s : PassState)
    (v : View) (iid : Nat) (p : IntrinsicParams)
    (hq : ∀ q, cfg.hash q % 2 ^ 32 ≠ UndefinedIndexT)
    (hpub : (buildStep cfg db s v).2.2 = some (iid, p)) : iid ≠ UndefinedIndexT := by
  unfold buildStep at hpub
  split at hpub
  · split at hpub
    · exact buildPublish_id_ne_sentinel cfg s v _ iid p hq hpub
    · split at hpub
      · exact buildPublish_id_ne_sentinel cfg _ v _ iid p hq hpub
      · simp at hpub
  · split at hpub
    · simp at hpub
    · exact buildPublish_id_ne_sentinel cfg _ v _ iid p hq hpub

/-- Claim C9 (amended): every group id the pass publishes for a view differs
from the reserved "unassigned" sentinel, provided every parameter-hash value
truncated to 32 bits differs from it: the pre-existing forced-id path keeps
an id that is already not the sentinel, and the mode-0 random path yields a
value below `2^31`; only the hash path can produce the sentinel, and the
code contains no guard against that. -/
theorem publishedGroupId_neverSentinel (cfg : Config) (db : List Datasheet) (s : PassState)
    (v : View) (iid : Nat) (p : IntrinsicParams)
    (hq : ∀ q, cfg.hash q % 2 ^ 32 ≠ UndefinedIndexT)
    (hpub : (processView cfg db s v).2.2 = some (iid, p)) : iid ≠ UndefinedIndexT := by
  unfold processView at hpub
  split at hpub
  · exact buildStep_id_ne_sentinel cfg db s v iid p hq hpub
  · split at hpub
    · exact buildStep_id_ne_sentinel cfg db s v iid p hq hpub
    · split at hpub
      · simp at hpub
      · split at hpub
        · simp at hpub
        · simp at hpub

/-- Counterexample to C9 as stated: the spec constrains the parameter hash
only to be a pure function of the parameters, so it may hit the sentinel;
with such a hash the pass assigns the reserved sentinel as a published group
id, and the published view carries it. -/
theorem sentinelGroupId_possible :
    (processView { cfgW with hash := fun _ => UndefinedIndexT } dbW (initState [])
        (vMetaW 1 "M1")).2.1.intrinsicId = UndefinedIndexT ∧
    (processView { cfgW with hash := fun _ => UndefinedIndexT } dbW (initState [])
        (vMetaW 1 "M1")).2.2
      = some (UndefinedIndexT,
          builtIntrinsic { cfgW with hash := fun _ => UndefinedIndexT } dbW (vMetaW 1 "M1")) := by
  decide

/-- Witness for C9 (amended): with the concrete sentinel-avoiding hash, the
id published for a fresh metadata view is not the sentinel. -/
theorem publishedGroupId_neverSentinel_witness :
    (encodeParams (builtIntrinsic cfgW dbW (vMetaW 1 "M1")) % 2 ^ 31) % 2 ^ 32
      ≠ UndefinedIndexT :=
  publishedGroupId_neverSentinel cfgW dbW (initState []) (vMetaW 1 "M1")
    ((encodeParams (builtIntrinsic cfgW dbW (vMetaW 1 "M1")) % 2 ^ 31) % 2 ^ 32)
    (builtIntrinsic cfgW dbW (vMetaW 1 "M1"))
    (by
      intro q
      show encodeParams q % 2 ^ 31 % 2 ^ 32 ≠ UndefinedIndexT
      have h1 : encodeParams q % 2 ^ 31 < 2 ^ 31 := Nat.mod_lt _ (by norm_num)
      rw [Nat.mod_eq_of_lt (by omega)]
      unfold UndefinedIndexT
      omega)
    (by decide)
